import Mathlib

/-!
# Verification of `core/optimizer.py` (tinynn)

Shallow embedding of the optimizers and learning-rate schedulers of
`src/core/optimizer.py` and proofs about them.

Numeric values are modelled as exact rationals (`ℚ`) where the code uses
only ring operations, and as reals (`ℝ`) where the code takes square
roots or fractional powers (Adam, ExponentialLR).

A tensor is modelled as its shape together with its row-major flat data
(`Param`); numpy `ravel` is the identity on the flat data, and `reshape`
attaches a shape to a flat slice.
-/

namespace TinyNN

/-- A numpy array as used in `BaseOptimizer.step`: a shape together with
the flat (row-major) data.  `np.ravel` returns `data`; `np.prod (shape)`
is `shape.prod`; `reshape` to a shape of matching size re-attaches the
shape to flat data. -/
structure Param where
  shape : List Nat
  data : List ℚ
  deriving Repr, DecidableEq

/-- A parameter source (`net.get_params_and_grads()`): an ordered list of
(parameter, gradient) pairs. -/
abbrev Net := List (Param × Param)

/-- Well-formedness of a parameter source: each parameter's data and its
gradient's data have exactly `shape.prod` entries (numpy guarantees this;
gradients have the same shape as their parameter). -/
def NetWF (net : Net) : Prop :=
  ∀ pg ∈ net, pg.1.data.length = pg.1.shape.prod ∧
    pg.2.data.length = pg.1.shape.prod

instance : DecidablePred NetWF := fun net =>
  inferInstanceAs (Decidable (∀ pg ∈ net, _ ∧ _))

/-- Embeds `np.concatenate([np.ravel(grad) for param, grad in net.get_params_and_grads()])`
(src/core/optimizer.py:28-29). -/
def flatten_grads (net : Net) : List ℚ :=
  (net.map fun pg => pg.2.data).flatten

/-- The walk of `BaseOptimizer.step` (src/core/optimizer.py:32-40): a
running pointer `p` into the flattened step vector `fs`; for each
`(param, grad)` pair, `block = np.prod(param.shape)`,
`_step = fs[p : p+block].reshape(param.shape) - weight_decay * param`,
`param += _step`, `p += block`.  Returns the updated net (gradients
untouched) together with the list `step` of recorded updates. -/
def stepLoop (wd : ℚ) (fs : List ℚ) : Net → Nat → Net × List Param
  | [], _ => ([], [])
  | (param, grad) :: rest, p =>
    let block := param.shape.prod
    let stepData :=
      List.zipWith (fun s x => s - wd * x) ((fs.drop p).take block) param.data
    let newParam : Param := ⟨param.shape, List.zipWith (· + ·) param.data stepData⟩
    let r := stepLoop wd fs rest (p + block)
    ((newParam, grad) :: r.1, (⟨param.shape, stepData⟩ : Param) :: r.2)

/-- Embeds `BaseOptimizer.step` (src/core/optimizer.py:26-40) for a step rule
`computeStep` acting on the flattened gradient vector. -/
def optStep (computeStep : List ℚ → List ℚ) (wd : ℚ) (net : Net) :
    Net × List Param :=
  stepLoop wd (computeStep (flatten_grads net)) net 0

/-- Embeds `SGD._compute_step` (src/core/optimizer.py:51-52): `-lr * grad`. -/
def sgdComputeStep (lr : ℚ) (grad : List ℚ) : List ℚ :=
  grad.map fun g => -lr * g

/-- Embeds `Momentum._compute_step` (src/core/optimizer.py:127-130):
`acc = momentum * acc + grad; step = -lr * acc`.  Returns the new
accumulator together with the step. -/
def momentumComputeStep (lr momentum : ℚ) (acc grad : List ℚ) :
    List ℚ × List ℚ :=
  let acc' := List.zipWith (fun a g => momentum * a + g) acc grad
  (acc', acc'.map fun a => -lr * a)

/-- Splitting a flat vector into consecutive blocks of the given sizes:
`chunks fs [n₁, n₂, …]` is `[fs[0:n₁], fs[n₁:n₁+n₂], …]` — "the next `n`
entries of S" of the spec. -/
def chunks (fs : List ℚ) : List Nat → List (List ℚ)
  | [] => []
  | b :: bs => fs.take b :: chunks (fs.drop b) bs

/-! ## Supporting lemmas about the step walk -/

/-- The walk only ever looks at `fs.drop p`: the pointer can be
eliminated. -/
theorem stepLoop_drop (wd : ℚ) :
    ∀ (net : Net) (fs : List ℚ) (p : Nat),
      stepLoop wd fs net p = stepLoop wd (fs.drop p) net 0 := by
  intro net
  induction net with
  | nil => intro fs p; rfl
  | cons pg rest ih =>
    intro fs p
    obtain ⟨param, grad⟩ := pg
    simp only [stepLoop, List.drop_zero, Nat.zero_add]
    rw [ih fs (p + param.shape.prod), ih (fs.drop p) param.shape.prod,
      List.drop_drop]

/-- Characterization of the step walk in terms of consecutive chunks of
the flattened step vector: the recorded updates are
`chunk - wd * param` (elementwise), and each new parameter is the old one
plus its recorded update; gradients are returned unchanged. -/
theorem stepLoop_eq_chunks (wd : ℚ) :
    ∀ (net : Net) (fs : List ℚ),
      (stepLoop wd fs net 0).2 =
        List.zipWith
          (fun (pg : Param × Param) c =>
            (⟨pg.1.shape, List.zipWith (fun s x => s - wd * x) c pg.1.data⟩ : Param))
          net (chunks fs (net.map fun pg => pg.1.shape.prod)) ∧
      (stepLoop wd fs net 0).1 =
        List.zipWith
          (fun (pg : Param × Param) (u : Param) =>
            ((⟨pg.1.shape, List.zipWith (· + ·) pg.1.data u.data⟩ : Param), pg.2))
          net (stepLoop wd fs net 0).2 := by
  intro net
  induction net with
  | nil => intro fs; exact ⟨rfl, rfl⟩
  | cons pg rest ih =>
    intro fs
    obtain ⟨param, grad⟩ := pg
    have hrec := stepLoop_drop wd rest fs param.shape.prod
    have hih := ih (fs.drop param.shape.prod)
    constructor
    · simp only [stepLoop, List.drop_zero, Nat.zero_add, chunks, List.map_cons,
        List.zipWith_cons_cons, hrec, hih.1]
    · simp only [stepLoop, List.drop_zero, Nat.zero_add, List.zipWith_cons_cons,
        hrec, hih.1, hih.2]

/-! ## Adam (src/core/optimizer.py:55-83)

Adam's arithmetic is elementwise over the flattened gradient vector, and
uses `np.sqrt`, so it is modelled over `ℝ` with vectors as functions
`ι → ℝ` (pointwise operations are exactly numpy's elementwise
semantics).  The scalar-`0` initialization of `_m`/`_v` broadcasts to the
zero vector. -/

/-- The mutable state of an `Adam` instance: hyperparameters set in
`__init__` (src/core/optimizer.py:57-66) and the accumulators `_t`, `_m`,
`_v` (src/core/optimizer.py:68-70). -/
structure AdamState (ι : Type) where
  lr : ℝ
  b1 : ℝ
  b2 : ℝ
  eps : ℝ
  t : ℕ
  m : ι → ℝ
  v : ι → ℝ

/-- Embeds `Adam.__init__` (src/core/optimizer.py:57-70): `_t = 0`, `_m = 0`,
`_v = 0` (scalar zeros, i.e. the zero vector under broadcasting). -/
def adamInit (ι : Type) (lr b1 b2 eps : ℝ) : AdamState ι :=
  ⟨lr, b1, b2, eps, 0, fun _ => 0, fun _ => 0⟩

/-- Embeds `Adam._compute_step` (src/core/optimizer.py:72-83). -/
noncomputable def adamComputeStep {ι : Type} (s : AdamState ι) (grad : ι → ℝ) :
    AdamState ι × (ι → ℝ) :=
  let t := s.t + 1
  let lr_t := s.lr * Real.sqrt (1 - s.b2 ^ t) / (1 - s.b1 ^ t)
  let m := fun i => s.b1 * s.m i + (1 - s.b1) * grad i
  let v := fun i => s.b2 * s.v i + (1 - s.b2) * grad i ^ 2
  ({ s with t := t, m := m, v := v },
    fun i => -lr_t * m i / (Real.sqrt (v i) + s.eps))

/-! ## Schedulers (src/core/optimizer.py:137-248)

`BaseScheduler.__init__` (src/core/optimizer.py:142-146) is declared as
`def __init__(self)`: it accepts NO optimizer argument, yet every
concrete scheduler calls `super().__init__(optimizer)`, which raises
`TypeError: __init__() takes 1 positional argument but 2 were given`
before the body runs.  Even a zero-argument call would fail: the body
sets `self._optim = None` and immediately evaluates
`self.get_current_lr()`, i.e. `None.lr`, raising `AttributeError`.
Construction of a scheduler therefore always raises.  We model Python's
dynamic failures with an error type and constructors returning
`Except`. -/

/-- Python runtime errors relevant to this module. -/
inductive PyErr where
  | typeError
  | attributeError
  | assertionError (msg : String)
  deriving Repr, DecidableEq

/-- The state fields `BaseScheduler.__init__` would populate:
`_optim` (the wrapped optimizer, represented by its learning rate),
`_initial_lr`, and `_t`. -/
structure SchedCore where
  optim : Option ℚ
  initialLr : ℚ
  t : ℕ
  deriving Repr, DecidableEq

/-- Embeds `BaseScheduler.__init__` (src/core/optimizer.py:142-146), modelled
with the number of positional arguments the caller passes beyond `self`.
The Python signature `def __init__(self)` takes none, so any extra
argument raises `TypeError`; with no argument, the body
`self._optim = None; self._initial_lr = self.get_current_lr()`
dereferences `None.lr` and raises `AttributeError`. -/
def baseSchedulerInit (extraArgs : Nat) : Except PyErr SchedCore :=
  if extraArgs ≠ 0 then .error .typeError
  else .error .attributeError

/-- Embeds `StepLR.__init__` (src/core/optimizer.py:164-171):
`super().__init__(optimizer)` (one positional argument), then
`assert step_size >= 1`. -/
def stepLRInit (optimLr : ℚ) (stepSize : ℤ) (gamma : ℚ) :
    Except PyErr SchedCore :=
  (baseSchedulerInit 1).bind fun core =>
    if 1 ≤ stepSize then .ok core
    else .error (.assertionError "step_size must greater than 0")

/-- Python numbers appearing in a milestones list. -/
inductive PyNum where
  | int (n : ℤ)
  | float (q : ℚ)
  deriving Repr, DecidableEq

/-- Python `int(m)`: the identity on ints, truncation toward zero on
floats. -/
def pyInt : PyNum → ℤ
  | .int n => n
  | .float q => if 0 ≤ q then ⌊q⌋ else -⌊-q⌋

/-- Python `isinstance(x, int)`. -/
def isInstInt : PyNum → Bool
  | .int _ => true
  | .float _ => false

/-- The milestone-validation logic of `MultiStepLR.__init__`
(src/core/optimizer.py:188-193): first `milestones = [int(m) for m in
milestones]` (coercion), then
`assert all(x < y for x, y in zip(milestones[:-1], milestones[1:])) and
all(isinstance(x, int) for x in milestones)`.  Returns the stored
milestone list on success. -/
def multiStepValidate (milestones : List PyNum) : Except PyErr (List ℤ) :=
  let ms := milestones.map pyInt
  if ((ms.zip ms.tail).all fun xy => decide (xy.1 < xy.2)) &&
      ((ms.map PyNum.int).all isInstInt)
  then .ok ms
  else .error (.assertionError "milestones must be a list of int and be increasing!")

/-- Embeds `MultiStepLR.__init__` (src/core/optimizer.py:183-194):
`super().__init__(optimizer)` first (one positional argument), then the
milestone validation. -/
def multiStepLRInit (optimLr : ℚ) (milestones : List PyNum) (gamma : ℚ) :
    Except PyErr (SchedCore × List ℤ) :=
  (baseSchedulerInit 1).bind fun core =>
    (multiStepValidate milestones).map fun ms => (core, ms)

/-- Embeds `ExponentialLR.__init__` (src/core/optimizer.py:207-213):
`super().__init__(optimizer)` (one positional argument), then stores
`decay_steps` and `decay_rate` without validation. -/
def exponentialLRInit (optimLr : ℚ) (decaySteps : ℕ) (decayRate : ℚ) :
    Except PyErr SchedCore :=
  (baseSchedulerInit 1).map fun core => core

/-- Embeds `LinearLR.__init__` (src/core/optimizer.py:228-242):
`super().__init__(optimizer)` (one positional argument), then
`assert final_lr < self._initial_lr` and `assert decay_steps > 0`. -/
def linearLRInit (optimLr : ℚ) (decaySteps : ℤ) (finalLr : ℚ) (startStep : ℤ) :
    Except PyErr SchedCore :=
  (baseSchedulerInit 1).bind fun core =>
    if finalLr < core.initialLr then
      if 0 < decaySteps then .ok core
      else .error (.assertionError "")
    else .error (.assertionError "The final lr should be no greater than the initial lr.")

/-! ## Scheduler step dynamics

`BaseScheduler.step` (src/core/optimizer.py:148-151): `self._t += 1;
self._optim.lr = self._compute_lr(); return self.get_current_lr()`.
The per-variant `_compute_lr` reads the already-incremented counter and
the optimizer's current lr.  We model each variant's scheduler state
(the optimizer's `lr` plus the scheduler's own fields) and its `step`
as a state transformer returning the new lr. -/

/-- The state of a (hypothetically constructed) `StepLR`: the wrapped
optimizer's `lr`, the counter `_t`, and the fields `_step_size`, `_gamma`
(src/core/optimizer.py:170-171). -/
structure StepLRState where
  lr : ℚ
  t : ℕ
  stepSize : ℕ
  gamma : ℚ
  deriving Repr, DecidableEq

/-- Embeds `StepLR._compute_lr` (src/core/optimizer.py:173-175):
`decay = gamma if t % step_size == 0 else 1.0; return decay * current_lr`. -/
def stepLR_compute_lr (s : StepLRState) : ℚ :=
  (if s.t % s.stepSize = 0 then s.gamma else 1) * s.lr

/-- Embeds `BaseScheduler.step` specialized to `StepLR`: increment `_t`, install
`_compute_lr()` as the optimizer's lr, return the new current lr. -/
def stepLR_step (s : StepLRState) : StepLRState × ℚ :=
  let s' := { s with t := s.t + 1 }
  let s'' := { s' with lr := stepLR_compute_lr s' }
  (s'', s''.lr)

/-- The state of a (hypothetically constructed) `ExponentialLR`: the
wrapped optimizer's `lr`, `_initial_lr`, `_t`, and the fields
`_decay_steps`, `_decay_rate` (src/core/optimizer.py:212-213).
`decay_rate ** (t / decay_steps)` is a real power, so this lives in `ℝ`. -/
structure ExpLRState where
  lr : ℝ
  initialLr : ℝ
  t : ℕ
  decaySteps : ℕ
  decayRate : ℝ

/-- Embeds `ExponentialLR._compute_lr` (src/core/optimizer.py:215-220):
`initial_lr * decay_rate ** (t / decay_steps)` while `t <= decay_steps`,
else the current lr unchanged. -/
noncomputable def expLR_compute_lr (s : ExpLRState) : ℝ :=
  if s.t ≤ s.decaySteps then
    s.initialLr * s.decayRate ^ ((s.t : ℝ) / (s.decaySteps : ℝ))
  else s.lr

/-- Embeds `BaseScheduler.step` specialized to `ExponentialLR`. -/
noncomputable def expLR_step (s : ExpLRState) : ExpLRState × ℝ :=
  let s' := { s with t := s.t + 1 }
  let s'' := { s' with lr := expLR_compute_lr s' }
  (s'', s''.lr)

/-- Iterating `expLR_step` (discarding the returned lr). -/
noncomputable def expLR_iter : ℕ → ExpLRState → ExpLRState
  | 0, s => s
  | n + 1, s => expLR_iter n (expLR_step s).1

/-- Run a scheduler `n` times from a state, collecting the values
returned by the successive `step()` calls. -/
def schedRun {α : Type} (step : α → α × ℚ) : ℕ → α → List ℚ
  | 0, _ => []
  | n + 1, s =>
    let r := step s
    r.2 :: schedRun step n r.1

/-! ## Iterated optimizer steps (for shape preservation)

A stateful step rule is a function `σ → List ℚ → σ × List ℚ` (its
accumulator state, threaded through successive `_compute_step` calls);
this covers all five optimizers in src/core/optimizer.py. -/

/-- Runs `n` successive calls of `BaseOptimizer.step` on the same parameter
source, threading the step rule's accumulator state. -/
def iterOptStep {σ : Type} (f : σ → List ℚ → σ × List ℚ) (wd : ℚ) :
    ℕ → σ × Net → σ × Net
  | 0, sn => sn
  | n + 1, sn =>
    let r := f sn.1 (flatten_grads sn.2)
    iterOptStep f wd n (r.1, (stepLoop wd r.2 sn.2 0).1)

/-! ## Claims -/

/-- C1.  The claim says construction of each scheduler variant succeeds
and records `initialLr` and `t = 0`.  In the code it never succeeds:
`BaseScheduler.__init__` is declared `def __init__(self)` with no
optimizer parameter, so the `super().__init__(optimizer)` call in every
variant raises `TypeError` at construction time, for every optimizer and
every configuration.  This theorem evaluates the four constructors and
shows each returns the `TypeError`. -/
theorem scheduler_construction_always_raises :
    (∀ (optimLr : ℚ) (stepSize : ℤ) (gamma : ℚ),
      stepLRInit optimLr stepSize gamma = .error .typeError) ∧
    (∀ (optimLr : ℚ) (milestones : List PyNum) (gamma : ℚ),
      multiStepLRInit optimLr milestones gamma = .error .typeError) ∧
    (∀ (optimLr : ℚ) (decaySteps : ℕ) (decayRate : ℚ),
      exponentialLRInit optimLr decaySteps decayRate = .error .typeError) ∧
    (∀ (optimLr : ℚ) (decaySteps : ℤ) (finalLr : ℚ) (startStep : ℤ),
      linearLRInit optimLr decaySteps finalLr startStep = .error .typeError) :=
  ⟨fun _ _ _ => rfl, fun _ _ _ => rfl, fun _ _ _ => rfl, fun _ _ _ _ => rfl⟩

/-- C4.  Milestone validation in `MultiStepLR.__init__`: the list
`[4, 2]` is indeed rejected by the assertion, but a list containing
non-integer values is NOT rejected: the comprehension
`[int(m) for m in milestones]` coerces before the assertion runs, so
`[1.5, 2.5]` is silently truncated to `[1, 2]` and accepted (the
`isinstance(x, int)` conjunct is dead code).  Moreover, the whole
constructor raises `TypeError` from `super().__init__(optimizer)` before
the validation is reached. -/
theorem multiStepLR_milestone_validation :
    multiStepValidate [.int 4, .int 2] =
      .error (.assertionError "milestones must be a list of int and be increasing!") ∧
    multiStepValidate [.float (3/2), .float (5/2)] = .ok [1, 2] ∧
    (∀ (optimLr : ℚ) (milestones : List PyNum) (gamma : ℚ),
      multiStepLRInit optimLr milestones gamma = .error .typeError) := by
  refine ⟨rfl, ?_, fun _ _ _ => rfl⟩
  have h1 : pyInt (.float (3/2)) = 1 := by
    simp only [pyInt, if_pos (by norm_num : (0:ℚ) ≤ 3/2)]
    norm_num [Int.floor_eq_iff]
  have h2 : pyInt (.float (5/2)) = 2 := by
    simp only [pyInt, if_pos (by norm_num : (0:ℚ) ≤ 5/2)]
    norm_num [Int.floor_eq_iff]
  simp [multiStepValidate, h1, h2, isInstInt]

/-! ## List algebra helpers -/

theorem zipWith_self_map {α β γ : Type} (f : α → β → γ) (g : α → β) :
    ∀ (as : List α), List.zipWith f as (as.map g) = as.map fun a => f a (g a) := by
  intro as
  induction as with
  | nil => rfl
  | cons a as ih => simp [ih]

theorem zipWith_self_zipWith {α β γ δ : Type} (f : α → γ → δ) (g : α → β → γ) :
    ∀ (as : List α) (bs : List β),
      List.zipWith f as (List.zipWith g as bs) =
        List.zipWith (fun a b => f a (g a b)) as bs := by
  intro as
  induction as with
  | nil => intro bs; rfl
  | cons a as ih =>
    intro bs
    cases bs with
    | nil => rfl
    | cons b bs => simp [ih]

/-- Chunking an elementwise image of the flattened gradient vector at the
parameter block sizes recovers the per-gradient images, provided each
gradient has exactly its parameter's element count. -/
theorem chunks_map_flatten (f : ℚ → ℚ) :
    ∀ (net : Net), (∀ pg ∈ net, pg.2.data.length = pg.1.shape.prod) →
      chunks ((flatten_grads net).map f) (net.map fun pg => pg.1.shape.prod) =
        net.map fun pg => pg.2.data.map f := by
  intro net
  induction net with
  | nil => intro _; rfl
  | cons pg rest ih =>
    intro h
    have hlen : (pg.2.data.map f).length = pg.1.shape.prod := by
      rw [List.length_map]; exact h pg (List.mem_cons_self pg rest)
    have hflat : flatten_grads (pg :: rest) = pg.2.data ++ flatten_grads rest := rfl
    simp only [List.map_cons, chunks, hflat, List.map_append]
    rw [List.take_left' hlen, List.drop_left' hlen,
      ih fun q hq => h q (List.mem_cons_of_mem pg hq)]

theorem zipWith_weight_decay (wd : ℚ) :
    ∀ (x c : List ℚ),
      List.zipWith (· + ·) x (List.zipWith (fun s y => s - wd * y) c x) =
        List.zipWith (fun y s => (1 - wd) * y + s) x c := by
  intro x
  induction x with
  | nil => intro c; rfl
  | cons a x ih =>
    intro c
    cases c with
    | nil => rfl
    | cons b c =>
      simp only [List.zipWith_cons_cons, ih]
      congr 1
      ring

theorem zipWith_sgd_pointwise (lr : ℚ) :
    ∀ (x g : List ℚ), x.length = g.length →
      List.zipWith (· + ·) x
        (List.zipWith (fun s y => s - 0 * y) (g.map fun a => -lr * a) x) =
      List.zipWith (fun y a => y - lr * a) x g := by
  intro x
  induction x with
  | nil => intro g _; rfl
  | cons a x ih =>
    intro g hg
    cases g with
    | nil => exact absurd hg (by simp)
    | cons b g =>
      simp only [List.map_cons, List.zipWith_cons_cons]
      rw [ih g (by simpa using hg)]
      congr 1
      ring

theorem zipWith_zero_momentum :
    ∀ (acc grad : List ℚ), acc.length = grad.length →
      List.zipWith (fun a g => 0 * a + g) acc grad = grad := by
  intro acc
  induction acc with
  | nil =>
    intro grad h
    cases grad with
    | nil => rfl
    | cons b g => exact absurd h (by simp)
  | cons a acc ih =>
    intro grad h
    cases grad with
    | nil => exact absurd h (by simp)
    | cons b grad =>
      simp only [List.zipWith_cons_cons]
      rw [ih grad (by simpa using h)]
      congr 1
      ring

/-- The step walk never touches parameter shapes or gradients. -/
theorem stepLoop_shape_grad (wd : ℚ) :
    ∀ (net : Net) (fs : List ℚ) (p : ℕ),
      ((stepLoop wd fs net p).1).map (fun pg => (pg.1.shape, pg.2)) =
        net.map fun pg => (pg.1.shape, pg.2) := by
  intro net
  induction net with
  | nil => intro fs p; rfl
  | cons pg rest ih =>
    intro fs p
    obtain ⟨param, grad⟩ := pg
    simp only [stepLoop, List.map_cons, ih]

/-- A small concrete parameter source used to instantiate theorems: a
shape-`[2]` parameter and a scalar (shape-`[]`) parameter. -/
def exampleNet : Net :=
  [(⟨[2], [1, 2]⟩, ⟨[2], [3, 4]⟩), (⟨[], [5]⟩, ⟨[], [6]⟩)]

/-- C2.  One `step(source)` call: the recorded update for the `k`-th
parameter is the `k`-th consecutive block (of size = that parameter's
element count) of the flattened step vector, reshaped to the parameter's
shape, minus `weight_decay *` that parameter (elementwise); each new
parameter is the old one plus its recorded update (in-place add), the
gradients are untouched, and the returned list is exactly the ordered
sequence of applied updates. -/
theorem optStep_blocks (f : List ℚ → List ℚ) (wd : ℚ) (net : Net)
    (hwf : NetWF net)
    (hlen : (f (flatten_grads net)).length = (flatten_grads net).length) :
    (optStep f wd net).2 =
      List.zipWith
        (fun (pg : Param × Param) c =>
          (⟨pg.1.shape, List.zipWith (fun s x => s - wd * x) c pg.1.data⟩ : Param))
        net (chunks (f (flatten_grads net)) (net.map fun pg => pg.1.shape.prod)) ∧
    (optStep f wd net).1 =
      List.zipWith
        (fun (pg : Param × Param) (u : Param) =>
          ((⟨pg.1.shape, List.zipWith (· + ·) pg.1.data u.data⟩ : Param), pg.2))
        net (optStep f wd net).2 :=
  stepLoop_eq_chunks wd net (f (flatten_grads net))

/-- Witness for C2 at a concrete input: SGD step rule with `lr = 2`,
`weight_decay = 1`, on `exampleNet`. -/
theorem optStep_blocks_witness :
    NetWF exampleNet ∧
    (sgdComputeStep 2 (flatten_grads exampleNet)).length =
      (flatten_grads exampleNet).length ∧
    ((optStep (sgdComputeStep 2) 1 exampleNet).2 =
      List.zipWith
        (fun (pg : Param × Param) c =>
          (⟨pg.1.shape, List.zipWith (fun s x => s - 1 * x) c pg.1.data⟩ : Param))
        exampleNet
        (chunks (sgdComputeStep 2 (flatten_grads exampleNet))
          (exampleNet.map fun pg => pg.1.shape.prod)) ∧
    (optStep (sgdComputeStep 2) 1 exampleNet).1 =
      List.zipWith
        (fun (pg : Param × Param) (u : Param) =>
          ((⟨pg.1.shape, List.zipWith (· + ·) pg.1.data u.data⟩ : Param), pg.2))
        exampleNet ((optStep (sgdComputeStep 2) 1 exampleNet).2)) :=
  ⟨by decide, by decide,
    optStep_blocks (sgdComputeStep 2) 1 exampleNet (by decide) (by decide)⟩

/-- C10.  The weight-decay term is evaluated on the pre-update parameter:
with `B` the parameter's block of the flattened step vector, the new
parameter value is `(1 - weight_decay) * oldParam + B` and the recorded
update is `B - weight_decay * oldParam` (elementwise). -/
theorem optStep_weight_decay_pre_update (f : List ℚ → List ℚ) (wd : ℚ)
    (net : Net) (hwf : NetWF net)
    (hlen : (f (flatten_grads net)).length = (flatten_grads net).length) :
    (optStep f wd net).1 =
      List.zipWith
        (fun (pg : Param × Param) c =>
          ((⟨pg.1.shape, List.zipWith (fun x s => (1 - wd) * x + s) pg.1.data c⟩ : Param),
            pg.2))
        net (chunks (f (flatten_grads net)) (net.map fun pg => pg.1.shape.prod)) ∧
    (optStep f wd net).2 =
      List.zipWith
        (fun (pg : Param × Param) c =>
          (⟨pg.1.shape, List.zipWith (fun s x => s - wd * x) c pg.1.data⟩ : Param))
        net (chunks (f (flatten_grads net)) (net.map fun pg => pg.1.shape.prod)) := by
  have h := stepLoop_eq_chunks wd net (f (flatten_grads net))
  refine ⟨?_, h.1⟩
  show (stepLoop wd (f (flatten_grads net)) net 0).1 = _
  rw [h.2, h.1, zipWith_self_zipWith]
  simp only [zipWith_weight_decay]

/-- Witness for C10 at a concrete input: SGD step rule with `lr = 2`,
`weight_decay = 1`, on `exampleNet`. -/
theorem optStep_weight_decay_pre_update_witness :
    NetWF exampleNet ∧
    (sgdComputeStep 2 (flatten_grads exampleNet)).length =
      (flatten_grads exampleNet).length ∧
    (optStep (sgdComputeStep 2) 1 exampleNet).1 =
      List.zipWith
        (fun (pg : Param × Param) c =>
          ((⟨pg.1.shape, List.zipWith (fun x s => (1 - 1) * x + s) pg.1.data c⟩ : Param),
            pg.2))
        exampleNet
        (chunks (sgdComputeStep 2 (flatten_grads exampleNet))
          (exampleNet.map fun pg => pg.1.shape.prod)) :=
  ⟨by decide, by decide,
    (optStep_weight_decay_pre_update (sgdComputeStep 2) 1 exampleNet
      (by decide) (by decide)).1⟩

/-- C5.  SGD with `weight_decay = 0`: after one `step()`, every parameter
equals its old value minus `lr` times its gradient, elementwise, with the
gradients untouched. -/
theorem sgd_step_no_weight_decay (lr : ℚ) (net : Net) (hwf : NetWF net) :
    (optStep (sgdComputeStep lr) 0 net).1 =
      net.map fun pg =>
        ((⟨pg.1.shape, List.zipWith (fun x g => x - lr * g) pg.1.data pg.2.data⟩ : Param),
          pg.2) := by
  have h := stepLoop_eq_chunks 0 net (sgdComputeStep lr (flatten_grads net))
  show (stepLoop 0 (sgdComputeStep lr (flatten_grads net)) net 0).1 = _
  rw [h.2, h.1]
  have hg : ∀ pg ∈ net, pg.2.data.length = pg.1.shape.prod :=
    fun pg hpg => (hwf pg hpg).2
  have hc : chunks (sgdComputeStep lr (flatten_grads net))
      (net.map fun pg => pg.1.shape.prod) =
      net.map fun pg => pg.2.data.map fun a => -lr * a :=
    chunks_map_flatten (fun a => -lr * a) net hg
  rw [hc, zipWith_self_map, zipWith_self_map]
  refine List.map_congr_left fun pg hpg => ?_
  have hx : pg.1.data.length = pg.2.data.length := by
    rw [(hwf pg hpg).1, (hwf pg hpg).2]
  simp only [zipWith_sgd_pointwise lr pg.1.data pg.2.data hx]

/-- Witness for C5 at a concrete input: `lr = 3` on `exampleNet`. -/
theorem sgd_step_no_weight_decay_witness :
    NetWF exampleNet ∧
    (optStep (sgdComputeStep 3) 0 exampleNet).1 =
      exampleNet.map fun pg =>
        ((⟨pg.1.shape, List.zipWith (fun x g => x - 3 * g) pg.1.data pg.2.data⟩ : Param),
          pg.2) :=
  ⟨by decide, sgd_step_no_weight_decay 3 exampleNet (by decide)⟩

/-- C6.  `Momentum` constructed with `momentum = 0` computes, on every
call (every accumulator state reachable with gradients of this size) and
for every flattened gradient vector, exactly SGD's step `-lr * grad`;
the accumulator after the call equals the gradient, so the equality is
stable across calls. -/
theorem momentum_zero_is_sgd (lr : ℚ) (acc grad : List ℚ)
    (h : acc.length = grad.length) :
    (momentumComputeStep lr 0 acc grad).2 = sgdComputeStep lr grad ∧
    (momentumComputeStep lr 0 acc grad).1 = grad := by
  have hz := zipWith_zero_momentum acc grad h
  constructor
  · show (List.zipWith (fun a g => 0 * a + g) acc grad).map (fun a => -lr * a) = _
    rw [hz]; rfl
  · exact hz

/-- Witness for C6 at a concrete input: `lr = 5`, accumulator `[1, 2]`,
gradient `[3, 4]`. -/
theorem momentum_zero_is_sgd_witness :
    ([(1 : ℚ), 2] : List ℚ).length = ([(3 : ℚ), 4] : List ℚ).length ∧
    (momentumComputeStep 5 0 [1, 2] [3, 4]).2 = sgdComputeStep 5 [3, 4] :=
  ⟨by decide, (momentum_zero_is_sgd 5 [1, 2] [3, 4] (by decide)).1⟩

/-- C3.  Adam: `_t`, `_m`, `_v` are initialized to `0`, and each
`_compute_step` call realizes exactly the recurrence `t += 1`;
`lr_t = lr * sqrt(1 - beta2^t) / (1 - beta1^t)`;
`m = beta1*m + (1-beta1)*grad`; `v = beta2*v + (1-beta2)*grad²`;
`step = -lr_t * m / (sqrt(v) + eps)` (elementwise, with the updated `m`,
`v` and the incremented `t`). -/
theorem adam_recurrence (ι : Type) :
    (∀ lr b1 b2 eps : ℝ,
      (adamInit ι lr b1 b2 eps).t = 0 ∧
      (adamInit ι lr b1 b2 eps).m = (fun _ => (0 : ℝ)) ∧
      (adamInit ι lr b1 b2 eps).v = (fun _ => (0 : ℝ))) ∧
    (∀ (s : AdamState ι) (grad : ι → ℝ),
      (adamComputeStep s grad).1.t = s.t + 1 ∧
      (adamComputeStep s grad).1.m =
        (fun i => s.b1 * s.m i + (1 - s.b1) * grad i) ∧
      (adamComputeStep s grad).1.v =
        (fun i => s.b2 * s.v i + (1 - s.b2) * grad i ^ 2) ∧
      (adamComputeStep s grad).2 =
        (fun i =>
          -(s.lr * Real.sqrt (1 - s.b2 ^ (s.t + 1)) / (1 - s.b1 ^ (s.t + 1))) *
              (s.b1 * s.m i + (1 - s.b1) * grad i) /
            (Real.sqrt (s.b2 * s.v i + (1 - s.b2) * grad i ^ 2) + s.eps))) :=
  ⟨fun _ _ _ _ => ⟨rfl, rfl, rfl⟩, fun _ _ => ⟨rfl, rfl, rfl, rfl⟩⟩

/-- C7.  `StepLR.step()`: the counter is incremented first; the new lr is
`gamma * lr` exactly when the incremented counter is a multiple of
`step_size`, and the current lr unchanged otherwise; the returned value
is the new lr.  Concretely, with `step_size = 2`, `gamma = 1/2` and
initial lr `1`, the returned lr sequence over four calls is
`[1, 1/2, 1/2, 1/4]`. -/
theorem stepLR_gamma_on_multiples :
    (∀ s : StepLRState, 1 ≤ s.stepSize →
      (stepLR_step s).1.t = s.t + 1 ∧
      (stepLR_step s).2 = (stepLR_step s).1.lr ∧
      (stepLR_step s).1.lr =
        if (s.t + 1) % s.stepSize = 0 then s.gamma * s.lr else s.lr) ∧
    schedRun stepLR_step 4 ⟨1, 0, 2, 1/2⟩ = [1, 1/2, 1/2, 1/4] := by
  constructor
  · intro s _
    refine ⟨rfl, rfl, ?_⟩
    show (if (s.t + 1) % s.stepSize = 0 then s.gamma else 1) * s.lr = _
    by_cases h : (s.t + 1) % s.stepSize = 0 <;> simp [h]
  · simp only [schedRun, stepLR_step, stepLR_compute_lr]
    norm_num

/-- Witness for C7 at a concrete state: `lr = 1`, `t = 1`,
`step_size = 2`, `gamma = 1/2` (the incremented counter `2` is a multiple
of `2`, so the lr halves). -/
theorem stepLR_gamma_on_multiples_witness :
    1 ≤ (⟨1, 1, 2, 1/2⟩ : StepLRState).stepSize ∧
    (stepLR_step ⟨1, 1, 2, 1/2⟩).1.lr = 1/2 := by
  refine ⟨by decide, ?_⟩
  have h := (stepLR_gamma_on_multiples.1 ⟨1, 1, 2, 1/2⟩ (by decide)).2.2
  rw [h]
  norm_num

/-- C8.  `ExponentialLR.step()`: with the incremented counter `t`, while
`t <= decay_steps` (boundary included) the lr is set to
`initial_lr * decay_rate ^ (t / decay_steps)`; once `t > decay_steps`
the current lr is returned unchanged — and stays unchanged under any
number of further calls (frozen, not recomputed). -/
theorem expLR_decay_then_freeze :
    (∀ s : ExpLRState, 1 ≤ s.decaySteps →
      (s.t + 1 ≤ s.decaySteps →
        (expLR_step s).1.lr =
          s.initialLr * s.decayRate ^ (((s.t + 1 : ℕ) : ℝ) / (s.decaySteps : ℝ)) ∧
        (expLR_step s).2 = (expLR_step s).1.lr) ∧
      (s.decaySteps < s.t + 1 → (expLR_step s).1.lr = s.lr)) ∧
    (∀ (s : ExpLRState) (n : ℕ), s.decaySteps ≤ s.t →
      (expLR_iter n s).lr = s.lr) := by
  constructor
  · intro s _
    constructor
    · intro hle
      have : (expLR_step s).1.lr =
          s.initialLr * s.decayRate ^ (((s.t + 1 : ℕ) : ℝ) / (s.decaySteps : ℝ)) := by
        show expLR_compute_lr { s with t := s.t + 1 } = _
        rw [expLR_compute_lr, if_pos hle]
      exact ⟨this, rfl⟩
    · intro hgt
      show expLR_compute_lr { s with t := s.t + 1 } = s.lr
      rw [expLR_compute_lr, if_neg (Nat.not_le_of_lt hgt)]
  · intro s n
    induction n generalizing s with
    | zero => intro _; rfl
    | succ n ih =>
      intro hfroze
      show (expLR_iter n (expLR_step s).1).lr = s.lr
      have hstep : (expLR_step s).1.lr = s.lr := by
        show expLR_compute_lr { s with t := s.t + 1 } = s.lr
        rw [expLR_compute_lr,
          if_neg (Nat.not_le_of_lt (Nat.lt_succ_of_le hfroze))]
      rw [ih (expLR_step s).1 (Nat.le_succ_of_le hfroze), hstep]

/-- Witness for C8 at concrete states: past the boundary
(`t = 7 > decay_steps = 2`) a call and three iterated calls leave
`lr = 5` unchanged; at the boundary (`t + 1 = decay_steps = 2`,
`decay_rate = 1`) the formula gives `3 * 1 ^ (2/2) = 3`. -/
theorem expLR_decay_then_freeze_witness :
    1 ≤ (⟨5, 3, 7, 2, 9⟩ : ExpLRState).decaySteps ∧
    (expLR_step ⟨5, 3, 7, 2, 9⟩).1.lr = 5 ∧
    (expLR_iter 3 ⟨5, 3, 7, 2, 9⟩).lr = 5 ∧
    (expLR_step ⟨0, 3, 1, 2, 1⟩).1.lr = 3 := by
  refine ⟨by norm_num, ?_, ?_, ?_⟩
  · exact (expLR_decay_then_freeze.1 ⟨5, 3, 7, 2, 9⟩ (by norm_num)).2 (by norm_num)
  · exact expLR_decay_then_freeze.2 ⟨5, 3, 7, 2, 9⟩ 3 (by norm_num)
  · have h := ((expLR_decay_then_freeze.1 ⟨0, 3, 1, 2, 1⟩ (by norm_num)).1
      (by norm_num)).1
    rw [h]
    norm_num [Real.one_rpow]

/-- Iterating `BaseOptimizer.step` never touches parameter shapes or
gradients (the walk rebuilds each parameter with its original shape). -/
theorem iterOptStep_shape_grad {σ : Type} (f : σ → List ℚ → σ × List ℚ)
    (wd : ℚ) :
    ∀ (n : ℕ) (s : σ) (net : Net),
      ((iterOptStep f wd n (s, net)).2).map (fun pg => (pg.1.shape, pg.2)) =
        net.map fun pg => (pg.1.shape, pg.2) := by
  intro n
  induction n with
  | zero => intro s net; rfl
  | succ n ih =>
    intro s net
    show ((iterOptStep f wd n
        ((f s (flatten_grads net)).1,
          (stepLoop wd (f s (flatten_grads net)).2 net 0).1)).2).map _ = _
    rw [ih, stepLoop_shape_grad]

/-- C9.  For every (stateful, length-preserving) step rule and every call
count `n ≥ 1`, applying `step()` `n` times to the same parameter source
leaves the shape of every parameter — and every gradient — unchanged;
only parameter values change. -/
theorem optimizer_steps_preserve_shapes {σ : Type} (f : σ → List ℚ → σ × List ℚ)
    (wd : ℚ) (s : σ) (net : Net) (n : ℕ) (hn : 1 ≤ n)
    (hf : ∀ (st : σ) (g : List ℚ), ((f st g).2).length = g.length) :
    ((iterOptStep f wd n (s, net)).2).map (fun pg => pg.1.shape) =
      net.map (fun pg => pg.1.shape) ∧
    ((iterOptStep f wd n (s, net)).2).map (fun pg => pg.2) =
      net.map fun pg => pg.2 := by
  have h := iterOptStep_shape_grad f wd n s net
  constructor
  · have h1 := congrArg (List.map Prod.fst) h
    simpa [List.map_map, Function.comp] using h1
  · have h2 := congrArg (List.map Prod.snd) h
    simpa [List.map_map, Function.comp] using h2

/-- SGD's step rule as a (trivially) stateful rule, for instantiating the
iterated-step theorems. -/
def sgdStateless (lr : ℚ) : Unit → List ℚ → Unit × List ℚ :=
  fun u g => (u, sgdComputeStep lr g)

/-- Witness for C9: two SGD steps (`lr = 2`, `weight_decay = 0`) on
`exampleNet` keep all shapes. -/
theorem optimizer_steps_preserve_shapes_witness :
    1 ≤ 2 ∧
    ((iterOptStep (sgdStateless 2) 0 2 ((), exampleNet)).2).map
        (fun pg => pg.1.shape) =
      exampleNet.map fun pg => pg.1.shape :=
  ⟨by decide,
    (optimizer_steps_preserve_shapes (sgdStateless 2) 0 () exampleNet 2
      (by decide)
      (fun st g => by simp [sgdStateless, sgdComputeStep])).1⟩
